import Mathlib

/-!
Verification model of `src/relay_server.py` (PyDesk relay server).

The relay keeps three Python dicts (`RelayServer.__init__`, lines 22-24):
  `self.hosts   : id -> socket`      (host registrations)
  `self.clients : socket -> target`  (client sessions)
  `self.connections : socket -> metadata` (bookkeeping; values never read)
and a stats dict (lines 25-30).

Python dicts are modelled as insertion-ordered association lists with unique
keys: an insert replaces an existing entry in place, otherwise appends; a
lookup returns the first (unique) match; deletion filters the key out.
Sockets are abstracted as numeric identifiers.  Sends on a socket either
succeed or fail, captured by an environment `sendOk : Sock -> Bool`;
`send_json` (lines 251-260) catches every exception internally and returns a
boolean, so it never raises to its caller.
-/

namespace PyDeskRelay

/-- A socket handle, abstracted as a numeric identifier. -/
abbrev Sock := Nat

/-- Lookup in a Python dict modelled as an association list: first match. -/
def dlookup {α β : Type} [DecidableEq α] : List (α × β) → α → Option β
  | [], _ => none
  | p :: rest, k => if p.1 = k then some p.2 else dlookup rest k

/-- Insert into a Python dict: replace the entry for `k` in place if present
(keys are unique, so the first occurrence is the only one), else append. -/
def dinsert {α β : Type} [DecidableEq α] : List (α × β) → α → β → List (α × β)
  | [], k, v => [(k, v)]
  | p :: rest, k, v => if p.1 = k then (k, v) :: rest else p :: dinsert rest k v

/-- Delete a key from a Python dict. -/
def ddelete {α β : Type} [DecidableEq α] (m : List (α × β)) (k : α) : List (α × β) :=
  m.filter (fun p => p.1 ≠ k)

/-- A decoded control message: the fields `handle_client` reads via
`msg.get(...)` (lines 99, 101, 151).  A missing field is `none`. -/
structure Msg where
  action : Option String
  id : Option String
  target_id : Option String
deriving DecidableEq

/-- Python truthiness of an optional string: `None` and `""` are falsy.
This is the test `if not host_id` (line 102) and `if not target_id`
(line 153). -/
def truthy : Option String → Bool
  | none => false
  | some s => s ≠ ""

/-- Control messages the relay sends (lines 155, 173, 178, 183, 211-214). -/
inductive OutMsg
  | errorMsg (err : String)
  | clientConnected
  | connected
deriving DecidableEq

/-- The error text of line 155: `'No target ID provided'`. -/
def noTargetError : String := "No target ID provided"

/-- The error text of lines 211-214. -/
def hostNotFoundError (t : String) : String :=
  "Host " ++ t ++ " not found. Host must start hosting first."

/-- The error text of line 178 (inside the unreachable except branch). -/
def hostFailedError : String := "Host connection failed"

/-- An observable output action of a worker: a `send_json` call with its
boolean outcome, or a forwarded data chunk (`sendall`, lines 138 and 200). -/
inductive Ev
  | send (dst : Sock) (m : OutMsg) (ok : Bool)
  | fwd (dst : Sock) (data : List Nat)
deriving DecidableEq

/-- The shared registry state: `self.hosts`, `self.clients`, and the keys of
`self.connections` (its values — type/addr/timestamps — are never read by the
program, so only the key set is modelled). -/
structure RelayState where
  hosts : List (String × Sock)
  clients : List (Sock × String)
  connections : List Sock
deriving DecidableEq

/-- The stats dict (lines 25-30).  `start_time` is never mutated and is
omitted.  `active_connections` is a Python int that is decremented, so it is
modelled as an integer. -/
structure Stats where
  total_connections : Nat
  active_connections : Int
  data_transferred : Nat
deriving DecidableEq

/-- Where `handle_client` goes after the handshake dispatch: dropped with no
loop (falls to the `finally` block), the host polling loop (lines 118-147),
or the client forwarding loop (lines 189-206) paired to `hostSock`. -/
inductive Mode
  | dropped
  | hostLoop (hostId : String)
  | clientLoop (targetId : String) (hostSock : Sock)
deriving DecidableEq

/-- Track a socket in `self.connections` (lines 107-112, 164-169): Python
dict insert keyed by the socket; only the key set is modelled. -/
def insertConn (cs : List Sock) (s : Sock) : List Sock :=
  if s ∈ cs then cs else cs ++ [s]

/-- The `register` branch of `handle_client` (lines 99-115): a falsy id
aborts with no reply and no state change (line 102-104); otherwise the host
map entry is inserted/overwritten (line 106) and the worker enters the host
loop. -/
def registerStep (st : RelayState) (sock : Sock) (idOpt : Option String) :
    RelayState × List Ev × Mode :=
  match idOpt with
  | none => (st, [], .dropped)
  | some hid =>
    if hid = "" then (st, [], .dropped)
    else
      ({ st with hosts := dinsert st.hosts hid sock,
                 connections := insertConn st.connections sock },
       [], .hostLoop hid)

/-- The `connect` branch of `handle_client` (lines 149-215).  A falsy
target aborts with the `noTargetError` reply (lines 153-157).  An unknown
target gets the `hostNotFoundError` reply (lines 208-215).  A known target:
the session is recorded (lines 163-169) BEFORE the notifications; then
`send_json(host_socket, client_connected)` is called — its boolean result is
ignored and, because `send_json` never raises, the except branch of lines
176-180 is unreachable — then `connected` is sent to the requester (lines
183-184) and the worker enters the client forwarding loop. -/
def connectStep (st : RelayState) (sock : Sock) (tidOpt : Option String)
    (sendOk : Sock → Bool) : RelayState × List Ev × Mode :=
  match tidOpt with
  | none => (st, [Ev.send sock (.errorMsg noTargetError) (sendOk sock)], .dropped)
  | some tid =>
    if tid = "" then
      (st, [Ev.send sock (.errorMsg noTargetError) (sendOk sock)], .dropped)
    else
      match dlookup st.hosts tid with
      | some hostSock =>
          ({ st with clients := dinsert st.clients sock tid,
                     connections := insertConn st.connections sock },
           [Ev.send hostSock .clientConnected (sendOk hostSock),
            Ev.send sock .connected (sendOk sock)],
           .clientLoop tid hostSock)
      | none =>
          (st, [Ev.send sock (.errorMsg (hostNotFoundError tid)) (sendOk sock)],
           .dropped)

/-- The handshake dispatch of `handle_client` (lines 89-215): no initial
message (line 92-94), or an action that is neither `register` nor `connect`,
drops the connection with no reply; otherwise the matching branch runs. -/
def handleInitial (st : RelayState) (sock : Sock) (msg : Option Msg)
    (sendOk : Sock → Bool) : RelayState × List Ev × Mode :=
  match msg with
  | none => (st, [], .dropped)
  | some m =>
    if m.action = some "register" then registerStep st sock m.id
    else if m.action = some "connect" then connectStep st sock m.target_id sendOk
    else (st, [], .dropped)

/-- The reverse lookup of the host loop (lines 121-125): scan the session
map in insertion order for the first entry whose target equals this host id. -/
def reverseLookup : List (Sock × String) → String → Option Sock
  | [], _ => none
  | p :: rest, hid => if p.2 = hid then some p.1 else reverseLookup rest hid

/-- `RelayServer.receive_all` (lines 288-300): loop reading until `size`
bytes were taken from the stream; a short read (peer closed) yields `none`. -/
def receive_all (stream : List Nat) (size : Nat) : Option (List Nat × List Nat) :=
  if size ≤ stream.length then some (stream.take size, stream.drop size)
  else none

/-- Decoding of `struct.unpack('!I', ...)` on a 4-byte big-endian header. -/
def unpackLen : List Nat → Nat
  | [a, b, c, d] => ((a * 256 + b) * 256 + c) * 256 + d
  | _ => 0

/-- The sanity bound of line 273: 10 MiB. -/
def maxMsgSize : Nat := 10 * 1024 * 1024

/-- `RelayServer.receive_json` (lines 262-286): read the 4-byte header; if
the declared size exceeds `maxMsgSize` fail at once, reading nothing further
(lines 273-275); otherwise read the payload and decode it (`json.loads` and
the shape projection are abstracted as `decode`; a decode failure is `none`).
Returns the result together with the unconsumed remainder of the stream. -/
def receive_json (decode : List Nat → Option Msg) (stream : List Nat) :
    Option Msg × List Nat :=
  match receive_all stream 4 with
  | none => (none, stream)
  | some (sizeData, rest) =>
    if unpackLen sizeData > maxMsgSize then (none, rest)
    else
      match receive_all rest (unpackLen sizeData) with
      | none => (none, [])
      | some (jsonData, rest2) => (decode jsonData, rest2)

/-- The host-map sweep of the `finally` block (lines 226-230): delete every
host entry whose stored socket is this worker's own connection. -/
def cleanupHosts (hs : List (String × Sock)) (sock : Sock) : List (String × Sock) :=
  hs.filter (fun p => p.2 ≠ sock)

/-- The registry part of the `finally` block (lines 226-241): sweep the host
map by value, delete the own session-map entry, delete the own connections
entry. -/
def registryCleanup (st : RelayState) (sock : Sock) : RelayState :=
  { hosts := cleanupHosts st.hosts sock,
    clients := ddelete st.clients sock,
    connections := st.connections.filter (fun s => s ≠ sock) }

/-- The whole `finally` block (lines 221-249): registry cleanup plus the
unconditional `self.stats['active_connections'] -= 1` of line 243. -/
def teardown (st : RelayState) (stats : Stats) (sock : Sock) : RelayState × Stats :=
  (registryCleanup st sock,
   { stats with active_connections := stats.active_connections - 1 })

/-- The three sites that touch the stats counters: the accept loop
(lines 56-57), a forwarded chunk (lines 134 and 197), and the `finally`
block (line 243). -/
inductive StatOp
  | accept
  | fwdChunk (n : Nat)
  | closeConn
deriving DecidableEq

/-- Effect of one stats-touching site on the counters. -/
def applyStatOp (s : Stats) : StatOp → Stats
  | .accept => { s with total_connections := s.total_connections + 1,
                        active_connections := s.active_connections + 1 }
  | .fwdChunk n => { s with data_transferred := s.data_transferred + n }
  | .closeConn => { s with active_connections := s.active_connections - 1 }

/-!
Interleaving model of one fresh pairing.  After `register(X)` from host
socket `h` and a `connect(target_id=X)` from client socket `c` whose host
lookup (line 161) succeeded, two workers run concurrently:

the client worker executes, in program order,
  pc 0: `self.clients[client] = target_id`      (line 163)
  pc 1: `send_json(host_socket, client_connected)` (line 174)
  pc 2: `send_json(client, connected)`          (line 184)
  pc 3: the client→host forwarding loop         (lines 191-203), one chunk
        per step, leaving the loop on EOF;

the host worker loops (lines 119-144): scan the session map for a session
targeting `X` (lines 121-125); if found, read one chunk from the host socket
and forward it to the found client socket (lines 128-141), EOF ending the
loop; otherwise sleep (line 144).

Pending input is a queue of chunks per socket.  A schedule is a list of
booleans: `true` steps the host worker, `false` the client worker.
-/

/-- State of the two workers of one fresh pairing: the client worker's
program counter, whether the host loop has ended, the shared session map,
the pending input chunks of each socket, and the emitted event trace. -/
structure PairState where
  pcC : Nat
  hostDone : Bool
  clients : List (Sock × String)
  hostIn : List (List Nat)
  clientIn : List (List Nat)
  trace : List Ev
deriving DecidableEq

/-- One atomic action of the client worker (lines 163, 174, 184, 191-203). -/
def stepClient (X : String) (h c : Sock) (st : PairState) : PairState :=
  match st.pcC with
  | 0 => { st with clients := dinsert st.clients c X, pcC := 1 }
  | 1 => { st with trace := st.trace ++ [Ev.send h .clientConnected true], pcC := 2 }
  | 2 => { st with trace := st.trace ++ [Ev.send c .connected true], pcC := 3 }
  | 3 =>
    match st.clientIn with
    | [] => { st with pcC := 4 }
    | d :: rest => { st with clientIn := rest, trace := st.trace ++ [Ev.fwd h d] }
  | _ => st

/-- One iteration of the host worker's loop (lines 119-144). -/
def stepHost (X : String) (st : PairState) : PairState :=
  if st.hostDone then st
  else
    match reverseLookup st.clients X with
    | some cs =>
      match st.hostIn with
      | [] => { st with hostDone := true }
      | d :: rest => { st with hostIn := rest, trace := st.trace ++ [Ev.fwd cs d] }
    | none => st

/-- Run the two workers under a schedule: `true` steps the host worker. -/
def runPair (X : String) (h c : Sock) : List Bool → PairState → PairState
  | [], st => st
  | b :: sched, st =>
    runPair X h c sched (if b then stepHost X st else stepClient X h c st)

/-- Initial state of a fresh pairing: the session is not yet recorded, the
host loop is live, and each socket may already hold buffered input. -/
def initPair (hostIn clientIn : List (List Nat)) : PairState :=
  { pcC := 0, hostDone := false, clients := [], hostIn := hostIn,
    clientIn := clientIn, trace := [] }

/-- Whether an event is a forwarded data chunk. -/
def isFwd : Ev → Bool
  | .fwd _ _ => true
  | _ => false

/-- `ctrlBefore a p tr` holds when the event `a` occurs strictly before the
first event of `tr` satisfying `p` (vacuously when no event satisfies `p`).
When `a` itself never satisfies `p`, this says `a` precedes every
`p`-event of the trace. -/
def ctrlBefore (a : Ev) (p : Ev → Bool) : List Ev → Bool
  | [] => true
  | e :: rest => if p e then false else if e = a then true else ctrlBefore a p rest

/-- Events emitted by the client worker: its two `send_json` calls and its
forwards to the host socket (the host worker only ever forwards to a client
socket). -/
def fromClientWorker (h : Sock) (e : Ev) : Bool :=
  match e with
  | .send _ _ _ => true
  | .fwd dst _ => dst = h

/-- Invariant of the pairing interleaving: the session map holds at most the
one fresh session, and the client worker's own events (filtered out of the
trace) follow its program order: nothing before the notification, then
`client_connected`, then `connected`, then only forwarded chunks. -/
def pairInv (X : String) (h c : Sock) (st : PairState) : Prop :=
  (st.clients = [] ∨ st.clients = [(c, X)])
  ∧ (st.pcC ≤ 1 → st.trace.filter (fromClientWorker h) = [])
  ∧ (st.pcC = 2 →
      st.trace.filter (fromClientWorker h) = [Ev.send h .clientConnected true])
  ∧ (3 ≤ st.pcC → ∃ fs, st.trace.filter (fromClientWorker h) =
        Ev.send h .clientConnected true :: Ev.send c .connected true :: fs
        ∧ ∀ e ∈ fs, isFwd e = true)

/-- The ordering property claimed for a pairing between host socket `h` and
client socket `c`: under every schedule and any buffered input, both control
messages precede every forwarded chunk in the emitted trace. -/
def pairingCtrlFirst (X : String) (h c : Sock) : Prop :=
  ∀ (sched : List Bool) (hostIn clientIn : List (List Nat)),
    ctrlBefore (Ev.send h .clientConnected true) isFwd
      (runPair X h c sched (initPair hostIn clientIn)).trace = true
    ∧ ctrlBefore (Ev.send c .connected true) isFwd
      (runPair X h c sched (initPair hostIn clientIn)).trace = true

/-- The registry state reached by `register("X")` from socket 1, then
`register("X")` from socket 2, then `connect(target_id="X")` from socket 5
(all sends succeeding). -/
def reRegState : RelayState :=
  (connectStep
    (registerStep (registerStep ⟨[], [], []⟩ 1 (some "X")).1 2 (some "X")).1
    5 (some "X") (fun _ => true)).1

/-- Number of live registry entries (host map plus session map). -/
def registrySize (st : RelayState) : Nat :=
  st.hosts.length + st.clients.length

/-- Number of registry entries owned by a connection: host-map entries whose
stored socket is it, plus session-map entries keyed by it. -/
def ownedEntries (st : RelayState) (sock : Sock) : Nat :=
  (st.hosts.filter (fun p => p.2 = sock)).length
    + (st.clients.filter (fun p => p.1 = sock)).length

/-! Helper lemmas about the dict operations. -/

theorem dlookup_dinsert_self {α β : Type} [DecidableEq α]
    (m : List (α × β)) (k : α) (v : β) :
    dlookup (dinsert m k v) k = some v := by
  induction m with
  | nil => simp [dinsert, dlookup]
  | cons p rest ih =>
    by_cases h : p.1 = k
    · simp [dinsert, dlookup, h]
    · simp [dinsert, dlookup, h, ih]

theorem dlookup_dinsert_ne {α β : Type} [DecidableEq α]
    (m : List (α × β)) (k k2 : α) (v : β) (h : k2 ≠ k) :
    dlookup (dinsert m k v) k2 = dlookup m k2 := by
  induction m with
  | nil => simp [dinsert, dlookup, Ne.symm h]
  | cons p rest ih =>
    by_cases hp : p.1 = k
    · simp [dinsert, dlookup, hp, Ne.symm h]
    · by_cases hp2 : p.1 = k2 <;> simp [dinsert, dlookup, hp, hp2, ih, h]

theorem dinsert_dinsert_fresh {α β : Type} [DecidableEq α]
    (m : List (α × β)) (k : α) (v1 v2 : β) (h : ∀ p ∈ m, p.1 ≠ k) :
    dinsert (dinsert m k v1) k v2 = m ++ [(k, v2)] := by
  induction m with
  | nil => simp [dinsert]
  | cons q rest ih =>
    have hq : q.1 ≠ k := h q (by simp)
    simp only [dinsert, if_neg hq, List.cons_append]
    rw [ih (fun p hp => h p (by simp [hp]))]

theorem filter_idem {α : Type} (q : α → Bool) (l : List α) :
    (l.filter q).filter q = l.filter q := by
  induction l with
  | nil => simp
  | cons a rest ih => cases h : q a <;> simp [List.filter_cons, h, ih]

theorem length_cleanupHosts (hs : List (String × Sock)) (sock : Sock) :
    (cleanupHosts hs sock).length
      + (hs.filter (fun p => p.2 = sock)).length = hs.length := by
  induction hs with
  | nil => simp [cleanupHosts]
  | cons p rest ih =>
    by_cases h : p.2 = sock <;>
      simp [cleanupHosts, List.filter_cons, h] at ih ⊢ <;> omega

theorem length_ddelete (cs : List (Sock × String)) (sock : Sock) :
    (ddelete cs sock).length
      + (cs.filter (fun p => p.1 = sock)).length = cs.length := by
  induction cs with
  | nil => simp [ddelete]
  | cons p rest ih =>
    by_cases h : p.1 = sock <;>
      simp [ddelete, List.filter_cons, h] at ih ⊢ <;> omega

theorem cleanupHosts_owned_zero (hs : List (String × Sock)) (sock : Sock) :
    (cleanupHosts hs sock).filter (fun p => p.2 = sock) = [] := by
  induction hs with
  | nil => simp [cleanupHosts]
  | cons p rest ih =>
    by_cases h : p.2 = sock <;> simp [cleanupHosts, List.filter_cons, h, ih]

theorem ddelete_owned_zero (cs : List (Sock × String)) (sock : Sock) :
    (ddelete cs sock).filter (fun p => p.1 = sock) = [] := by
  induction cs with
  | nil => simp [ddelete]
  | cons p rest ih =>
    by_cases h : p.1 = sock <;> simp [ddelete, List.filter_cons, h, ih]

/-- C1: the claim says that when the `client_connected` notification to the
registered host fails, the relay replies with an error and discards the
session.  The code intends this (lines 176-180) but `send_json` catches every
exception internally and returns `False`, a value `handle_client` ignores, so
the except branch is dead.  At the failing input — host `"abc"` registered on
socket 1, `connect` from socket 2, sends to socket 1 failing — the code keeps
the session, sends no error, replies `connected` to the requester, and enters
the forwarding loop. -/
theorem C1_code_behavior :
    connectStep ⟨[("abc", 1)], [], []⟩ 2 (some "abc") (fun s => s ≠ 1) =
      (⟨[("abc", 1)], [(2, "abc")], [2]⟩,
       [Ev.send 1 .clientConnected false, Ev.send 2 .connected true],
       .clientLoop "abc" 1) := by
  rfl

/-- C2 counterexample: the reply to a `connect` whose target is unknown is
not exactly `{action:error, error:"Host abc not found"}`: the code's error
text carries a trailing sentence. -/
theorem C2_counterexample :
    connectStep ⟨[], [], []⟩ 2 (some "abc") (fun _ => true) =
      (⟨[], [], []⟩,
       [Ev.send 2 (.errorMsg "Host abc not found. Host must start hosting first.") true],
       .dropped)
    ∧ hostNotFoundError "abc" ≠ "Host abc not found" := by
  constructor
  · rfl
  · decide

/-- C2 amended: for every `connect` whose target id is non-empty and not in
the host map, the relay replies exactly
`{action:error, error:"Host <id> not found. Host must start hosting first."}`
to the requester, creates no session, leaves the registry unchanged, and
forwards no bytes (the connection is dropped). -/
theorem C2_amended (st : RelayState) (sock : Sock) (tid : String)
    (sendOk : Sock → Bool) (hne : tid ≠ "") (hmiss : dlookup st.hosts tid = none) :
    connectStep st sock (some tid) sendOk =
      (st, [Ev.send sock (.errorMsg (hostNotFoundError tid)) (sendOk sock)],
       .dropped) := by
  simp [connectStep, hne, hmiss]

/-- C2 witness: the amended theorem at a concrete input. -/
theorem C2_witness :
    connectStep ⟨[("xyz", 7)], [], []⟩ 2 (some "abc") (fun _ => true) =
      (⟨[("xyz", 7)], [], []⟩,
       [Ev.send 2 (.errorMsg (hostNotFoundError "abc")) true], .dropped) :=
  C2_amended ⟨[("xyz", 7)], [], []⟩ 2 "abc" (fun _ => true) (by decide) (by decide)

/-- C3 counterexample: the reply to a `connect` without a target id is not
`{action:error, error:"No target ID"}`: the code's error text is
`"No target ID provided"`. -/
theorem C3_counterexample :
    connectStep ⟨[], [], []⟩ 2 none (fun _ => true) =
      (⟨[], [], []⟩, [Ev.send 2 (.errorMsg "No target ID provided") true], .dropped)
    ∧ noTargetError ≠ "No target ID" := by
  constructor
  · rfl
  · decide

/-- C3 amended: for every `connect` whose target id is empty or absent, the
relay replies `{action:error, error:"No target ID provided"}` to the
requester and creates no session (state unchanged, connection dropped). -/
theorem C3_amended (st : RelayState) (sock : Sock) (tidOpt : Option String)
    (sendOk : Sock → Bool) (hfalsy : truthy tidOpt = false) :
    connectStep st sock tidOpt sendOk =
      (st, [Ev.send sock (.errorMsg noTargetError) (sendOk sock)], .dropped) := by
  match tidOpt with
  | none => rfl
  | some tid =>
    simp [truthy] at hfalsy
    simp [connectStep, hfalsy]

/-- C3 witness: the amended theorem at concrete inputs, for both the absent
and the empty target id. -/
theorem C3_witness :
    connectStep ⟨[("a", 1)], [], []⟩ 2 none (fun _ => true) =
      (⟨[("a", 1)], [], []⟩, [Ev.send 2 (.errorMsg noTargetError) true], .dropped)
    ∧ connectStep ⟨[("a", 1)], [], []⟩ 2 (some "") (fun _ => true) =
      (⟨[("a", 1)], [], []⟩, [Ev.send 2 (.errorMsg noTargetError) true], .dropped) :=
  ⟨C3_amended ⟨[("a", 1)], [], []⟩ 2 none (fun _ => true) (by decide),
   C3_amended ⟨[("a", 1)], [], []⟩ 2 (some "") (fun _ => true) (by decide)⟩

/-- C4: a `register` with an empty or absent id aborts with no reply and no
state change; otherwise the host map entry for the id is inserted,
overwriting any existing entry (the lookup afterwards yields the new socket)
and leaving every other id unchanged — no further duplicate handling. -/
theorem C4_register (st : RelayState) (sock : Sock) (idOpt : Option String) :
    (truthy idOpt = false → registerStep st sock idOpt = (st, [], .dropped))
    ∧ ∀ hid, idOpt = some hid → hid ≠ "" →
        registerStep st sock idOpt =
          ({ st with hosts := dinsert st.hosts hid sock,
                     connections := insertConn st.connections sock },
           [], .hostLoop hid)
        ∧ dlookup (dinsert st.hosts hid sock) hid = some sock
        ∧ ∀ k, k ≠ hid → dlookup (dinsert st.hosts hid sock) k = dlookup st.hosts k := by
  constructor
  · intro hfalsy
    match idOpt with
    | none => rfl
    | some hid =>
      simp [truthy] at hfalsy
      simp [registerStep, hfalsy]
  · intro hid heq hne
    subst heq
    refine ⟨by simp [registerStep, hne], dlookup_dinsert_self st.hosts hid sock,
      fun k hk => dlookup_dinsert_ne st.hosts hid k sock hk⟩

/-- C4 witness: the rejection branch at `id = ""` and the overwrite branch at
`id = "abc"` over a host map that already maps `"abc"` to socket 9. -/
theorem C4_witness :
    registerStep ⟨[("abc", 9)], [], []⟩ 1 (some "") = (⟨[("abc", 9)], [], []⟩, [], .dropped)
    ∧ dlookup (dinsert ([("abc", 9)] : List (String × Sock)) "abc" 1) "abc" = some 1 :=
  ⟨(C4_register ⟨[("abc", 9)], [], []⟩ 1 (some "")).1 (by decide),
   ((C4_register ⟨[("abc", 9)], [], []⟩ 1 (some "abc")).2 "abc" rfl (by decide)).2.1⟩

/-- C5: when the 4-byte big-endian length header decodes to more than
10 MiB, `receive_json` fails having consumed exactly the 4 header bytes
(the remainder of the stream is untouched), and `handle_client` on a failed
receive sends no reply and drops the connection. -/
theorem C5_oversized (decode : List Nat → Option Msg) (stream : List Nat)
    (hlen : 4 ≤ stream.length)
    (hbig : unpackLen (stream.take 4) > maxMsgSize) :
    receive_json decode stream = (none, stream.drop 4)
    ∧ ∀ (st : RelayState) (sock : Sock) (sendOk : Sock → Bool),
        handleInitial st sock none sendOk = (st, [], .dropped) := by
  constructor
  · have h4 : receive_all stream 4 = some (stream.take 4, stream.drop 4) := by
      simp [receive_all, hlen]
    simp [receive_json, h4, hbig]
  · intro st sock sendOk
    rfl

/-- C5 witness: a header declaring 2^24 = 16777216 bytes (> 10485760). -/
theorem C5_witness :
    receive_json (fun _ => none) [1, 0, 0, 0, 9, 9] = (none, [9, 9]) :=
  (C5_oversized (fun _ => none) [1, 0, 0, 0, 9, 9] (by decide) (by decide)).1

/-- C7 counterexample: after `register("X")` from socket 1, `register("X")`
from socket 2 and `connect("X")` from socket 5, the reverse lookup that the
first connection's worker still runs with its local host id `"X"`
(lines 121-125) matches client 5, and that worker's next loop iteration
forwards the first connection's pending bytes to client 5 — so the first
connection is matched with a client again, refuting the claim. -/
theorem C7_counterexample :
    reverseLookup reRegState.clients "X" = some 5
    ∧ (stepHost "X" ⟨4, false, reRegState.clients, [[7]], [], []⟩).trace
        = [Ev.fwd 5 [7]] := by
  constructor
  · rfl
  · rfl

/-- C7 amended: after two successive registrations of the same id from
sockets `s1` and then `s2`, the host map resolves the id to `s2`, so every
later `connect` for that id notifies `s2` and enters the forwarding loop
paired with `s2`; the first connection is no longer reachable through the
host map, but its worker still matches sessions by id (see the
counterexample), so it is not excluded from matching. -/
theorem C7_amended (hs : List (String × Sock)) (X : String) (s1 s2 : Sock)
    (st : RelayState) (c : Sock) (sendOk : Sock → Bool)
    (hX : X ≠ "") (hst : st.hosts = dinsert (dinsert hs X s1) X s2) :
    dlookup st.hosts X = some s2
    ∧ connectStep st c (some X) sendOk =
        ({ st with clients := dinsert st.clients c X,
                   connections := insertConn st.connections c },
         [Ev.send s2 .clientConnected (sendOk s2),
          Ev.send c .connected (sendOk c)],
         .clientLoop X s2) := by
  have hlook : dlookup st.hosts X = some s2 := by
    rw [hst]; exact dlookup_dinsert_self _ X s2
  exact ⟨hlook, by simp [connectStep, hX, hlook]⟩

/-- C7 witness: the amended theorem at the concrete re-registration scenario
(sockets 1 then 2 under `"X"`, client socket 5). -/
theorem C7_witness :
    dlookup (RelayState.mk (dinsert (dinsert [] "X" 1) "X" 2) [] []).hosts "X"
      = some 2 :=
  (C7_amended [] "X" 1 2 ⟨dinsert (dinsert [] "X" 1) "X" 2, [], []⟩ 5
    (fun _ => true) (by decide) rfl).1

/-- C8 counterexample: `active_connections` is not monotone — an accept
followed by one teardown brings it from 1 back to 0 (line 243 decrements). -/
theorem C8_counterexample :
    (applyStatOp (applyStatOp ⟨0, 0, 0⟩ .accept) .closeConn).active_connections
      < (applyStatOp ⟨0, 0, 0⟩ .accept).active_connections := by
  decide

/-- C8 amended: `total_connections` and `data_transferred` never decrease
under any counter-touching operation; `active_connections` is incremented by
accept, unchanged by forwarding, and decremented by exactly 1 at teardown,
so it is not monotone. -/
theorem C8_amended (s : Stats) (op : StatOp) :
    s.total_connections ≤ (applyStatOp s op).total_connections
    ∧ s.data_transferred ≤ (applyStatOp s op).data_transferred
    ∧ (applyStatOp s .accept).active_connections = s.active_connections + 1
    ∧ (applyStatOp s .closeConn).active_connections = s.active_connections - 1
    ∧ ∀ n, (applyStatOp s (.fwdChunk n)).active_connections = s.active_connections := by
  cases op <;> simp [applyStatOp]

/-- C9 counterexample: the Closing step is not idempotent on the stats — a
second execution of `teardown` for the same connection decrements
`active_connections` again (line 243 is unconditional), so a second close
has a further effect. -/
theorem C9_counterexample :
    (teardown (teardown ⟨[], [(5, "X")], [5]⟩ ⟨1, 1, 0⟩ 5).1
              (teardown ⟨[], [(5, "X")], [5]⟩ ⟨1, 1, 0⟩ 5).2 5).2
      ≠ (teardown ⟨[], [(5, "X")], [5]⟩ ⟨1, 1, 0⟩ 5).2 := by
  decide

/-- C9 amended: for a connection owning exactly one registry entry (its own
host-map entry or its own session entry), teardown removes exactly that one
entry, decrements `active_connections` by exactly 1 and touches no other
counter; the registry part of teardown is idempotent (a second sweep removes
nothing), but each execution of the Closing step decrements
`active_connections` again — the step runs exactly once per connection only
because it sits in a `finally` block. -/
theorem C9_amended (st : RelayState) (stats : Stats) (sock : Sock)
    (hown : ownedEntries st sock = 1) :
    registrySize (teardown st stats sock).1 = registrySize st - 1
    ∧ ownedEntries (teardown st stats sock).1 sock = 0
    ∧ (teardown st stats sock).2.active_connections = stats.active_connections - 1
    ∧ (teardown st stats sock).2.total_connections = stats.total_connections
    ∧ (teardown st stats sock).2.data_transferred = stats.data_transferred
    ∧ registryCleanup (registryCleanup st sock) sock = registryCleanup st sock := by
  have hh := length_cleanupHosts st.hosts sock
  have hc := length_ddelete st.clients sock
  unfold ownedEntries at hown
  refine ⟨?_, ?_, rfl, rfl, rfl, ?_⟩
  · simp only [teardown, registryCleanup, registrySize]
    omega
  · simp only [teardown, registryCleanup, ownedEntries,
      cleanupHosts_owned_zero, ddelete_owned_zero, List.length_nil]
  · simp only [registryCleanup, cleanupHosts, ddelete, filter_idem]

/-- C9 witness: the amended theorem for a paired client, socket 5. -/
theorem C9_witness :
    registrySize (teardown ⟨[("X", 1)], [(5, "X")], [1, 5]⟩ ⟨2, 2, 0⟩ 5).1
      = registrySize ⟨[("X", 1)], [(5, "X")], [1, 5]⟩ - 1 :=
  (C9_amended ⟨[("X", 1)], [(5, "X")], [1, 5]⟩ ⟨2, 2, 0⟩ 5 (by decide)).1

/-- C10: teardown deletes from the host map exactly the entries whose stored
socket is the closing connection (membership characterization); when the
connection owns no host-map entry the sweep removes nothing; and after an id
was overwritten by a second registration from a different socket, the first
socket's sweep leaves the whole host map — the newer registration included —
unchanged. -/
theorem C10_frame (st : RelayState) (stats : Stats) (sock : Sock) :
    (∀ p, p ∈ (teardown st stats sock).1.hosts ↔ (p ∈ st.hosts ∧ p.2 ≠ sock))
    ∧ ((∀ p ∈ st.hosts, p.2 ≠ sock) → (teardown st stats sock).1.hosts = st.hosts)
    ∧ ∀ (hs : List (String × Sock)) (X : String) (s1 s2 : Sock),
        s1 ≠ s2 → (∀ p ∈ hs, p.1 ≠ X) → (∀ p ∈ hs, p.2 ≠ s1) →
        cleanupHosts (dinsert (dinsert hs X s1) X s2) s1
          = dinsert (dinsert hs X s1) X s2 := by
  refine ⟨?_, ?_, ?_⟩
  · intro p
    simp [teardown, registryCleanup, cleanupHosts, List.mem_filter]
  · intro hall
    simp only [teardown, registryCleanup, cleanupHosts]
    exact List.filter_eq_self.mpr (fun p hp => by simpa using hall p hp)
  · intro hs X s1 s2 h12 hk hv
    rw [dinsert_dinsert_fresh hs X s1 s2 hk]
    unfold cleanupHosts
    refine List.filter_eq_self.mpr (fun p hp => ?_)
    rcases List.mem_append.mp hp with hmem | hmem
    · simpa using hv p hmem
    · simp at hmem
      simp [hmem, Ne.symm h12]

/-- C10 witness: with `"X"` re-registered from socket 1 then socket 2, the
sweep of socket 1 removes nothing. -/
theorem C10_witness :
    cleanupHosts (dinsert (dinsert [] "X" 1) "X" 2) 1
      = dinsert (dinsert [] "X" 1) "X" 2 :=
  (C10_frame ⟨[], [], []⟩ ⟨0, 0, 0⟩ 1).2.2 [] "X" 1 2 (by decide)
    (by simp) (by simp)

/-! Invariant proof for the pairing interleaving. -/

theorem pairInv_init (X : String) (h c : Sock)
    (hostIn clientIn : List (List Nat)) :
    pairInv X h c (initPair hostIn clientIn) := by
  refine ⟨Or.inl rfl, fun _ => rfl, fun h2 => ?_, fun h3 => ?_⟩
  · simp [initPair] at h2
  · simp [initPair] at h3

theorem pairInv_stepClient (X : String) (h c : Sock) (st : PairState)
    (hinv : pairInv X h c st) : pairInv X h c (stepClient X h c st) := by
  obtain ⟨hcl, h1, h2, h3⟩ := hinv
  match hpc : st.pcC with
  | 0 =>
    have hstep : stepClient X h c st =
        { st with clients := dinsert st.clients c X, pcC := 1 } := by
      unfold stepClient; rw [hpc]
    rw [hstep]
    refine ⟨?_, ?_, ?_, ?_⟩
    · show dinsert st.clients c X = [] ∨ dinsert st.clients c X = [(c, X)]
      rcases hcl with hcl | hcl <;> simp [hcl, dinsert]
    · intro _
      exact h1 (by omega)
    · intro hh
      simp at hh
    · intro hh
      simp at hh
  | 1 =>
    have hstep : stepClient X h c st =
        { st with trace := st.trace ++ [Ev.send h .clientConnected true],
                  pcC := 2 } := by
      unfold stepClient; rw [hpc]
    rw [hstep]
    refine ⟨hcl, ?_, ?_, ?_⟩
    · intro hh
      simp at hh
    · intro _
      show (st.trace ++ [Ev.send h .clientConnected true]).filter
          (fromClientWorker h) = _
      rw [List.filter_append, h1 (by omega)]
      simp [fromClientWorker]
    · intro hh
      simp at hh
  | 2 =>
    have hstep : stepClient X h c st =
        { st with trace := st.trace ++ [Ev.send c .connected true],
                  pcC := 3 } := by
      unfold stepClient; rw [hpc]
    rw [hstep]
    refine ⟨hcl, ?_, ?_, ?_⟩
    · intro hh
      simp at hh
    · intro hh
      simp at hh
    · intro _
      refine ⟨[], ?_, by simp⟩
      show (st.trace ++ [Ev.send c .connected true]).filter
          (fromClientWorker h) = _
      rw [List.filter_append, h2 hpc]
      simp [fromClientWorker]
  | 3 =>
    obtain ⟨fs, hfeq, hfs⟩ := h3 (by omega)
    cases hci : st.clientIn with
    | nil =>
      have hstep : stepClient X h c st = { st with pcC := 4 } := by
        unfold stepClient; rw [hpc, hci]
      rw [hstep]
      refine ⟨hcl, ?_, ?_, fun _ => ⟨fs, hfeq, hfs⟩⟩
      · intro hh
        simp at hh
      · intro hh
        simp at hh
    | cons d rest =>
      have hstep : stepClient X h c st =
          { st with clientIn := rest, trace := st.trace ++ [Ev.fwd h d] } := by
        unfold stepClient; rw [hpc, hci]
      rw [hstep]
      refine ⟨hcl, ?_, ?_, ?_⟩
      · intro hh
        have hh2 : st.pcC ≤ 1 := hh
        omega
      · intro hh
        have hh2 : st.pcC = 2 := hh
        omega
      · intro _
        refine ⟨fs ++ [Ev.fwd h d], ?_, ?_⟩
        · show (st.trace ++ [Ev.fwd h d]).filter (fromClientWorker h) = _
          rw [List.filter_append, hfeq]
          simp [fromClientWorker, isFwd]
        · intro e he
          rcases List.mem_append.mp he with he | he
          · exact hfs e he
          · simp at he
            simp [he, isFwd]
  | (n + 4) =>
    have hstep : stepClient X h c st = st := by
      unfold stepClient
      rw [hpc]
      rfl
    rw [hstep]
    exact ⟨hcl, h1, h2, h3⟩

theorem pairInv_stepHost (X : String) (h c : Sock) (hne : h ≠ c)
    (st : PairState) (hinv : pairInv X h c st) :
    pairInv X h c (stepHost X st) := by
  obtain ⟨hcl, h1, h2, h3⟩ := hinv
  unfold stepHost
  by_cases hd : st.hostDone
  · simp only [hd, if_true]
    exact ⟨hcl, h1, h2, h3⟩
  · simp only [hd, if_false, Bool.false_eq_true]
    rcases hcl with hcl | hcl
    · simp only [hcl, reverseLookup]
      exact ⟨Or.inl hcl, h1, h2, h3⟩
    · have hrl : reverseLookup st.clients X = some c := by
        simp [hcl, reverseLookup]
      rw [hrl]
      cases hhi : st.hostIn with
      | nil =>
        exact ⟨Or.inr hcl, h1, h2, h3⟩
      | cons d rest =>
        have hfcd : fromClientWorker h (Ev.fwd c d) = false := by
          simp [fromClientWorker, Ne.symm hne]
        refine ⟨Or.inr hcl, ?_, ?_, ?_⟩ <;>
          simp only [List.filter_append, List.filter_cons, List.filter_nil, hfcd,
            Bool.false_eq_true, if_false, List.append_nil]
        · exact h1
        · exact h2
        · exact h3

theorem pairInv_runPair (X : String) (h c : Sock) (hne : h ≠ c)
    (sched : List Bool) (st : PairState) (hinv : pairInv X h c st) :
    pairInv X h c (runPair X h c sched st) := by
  induction sched generalizing st with
  | nil => exact hinv
  | cons b rest ih =>
    simp only [runPair]
    apply ih
    cases b
    · exact pairInv_stepClient X h c st hinv
    · exact pairInv_stepHost X h c hne st hinv

/-- C6 counterexample: the notifications do NOT always precede every
forwarded byte.  The session is recorded (line 163) before either
notification is sent, so the host worker can match it and forward buffered
host bytes to the client first: under the schedule [client worker, host
worker] with one chunk buffered on the host socket, the first event of the
trace is a forwarded chunk delivered to the client socket, before the host
has received `client_connected` and before the client has received
`connected`. -/
theorem C6_counterexample : ¬ pairingCtrlFirst "abc" 1 2 := by
  intro hcl
  have h1 := (hcl [false, true] [[104]] []).1
  exact absurd h1 (by decide)

/-- C6 amended: in every interleaving of the two workers of a fresh pairing,
the host receives `client_connected` and the client receives `connected`,
in that order, strictly before any byte forwarded from the client to the
host; bytes forwarded from the host to the client carry no such guarantee
(see the counterexample). -/
theorem C6_order (X : String) (h c : Sock) (hne : h ≠ c)
    (sched : List Bool) (hostIn clientIn : List (List Nat)) (d : List Nat)
    (hmem : Ev.fwd h d ∈ (runPair X h c sched (initPair hostIn clientIn)).trace) :
    List.Sublist
      [Ev.send h .clientConnected true, Ev.send c .connected true, Ev.fwd h d]
      (runPair X h c sched (initPair hostIn clientIn)).trace := by
  obtain ⟨hcl, h1, h2, h3⟩ :=
    pairInv_runPair X h c hne sched (initPair hostIn clientIn)
      (pairInv_init X h c hostIn clientIn)
  have hmemf : Ev.fwd h d ∈
      (runPair X h c sched (initPair hostIn clientIn)).trace.filter
        (fromClientWorker h) := by
    rw [List.mem_filter]
    exact ⟨hmem, by simp [fromClientWorker]⟩
  by_cases hp1 : (runPair X h c sched (initPair hostIn clientIn)).pcC ≤ 1
  · rw [h1 hp1] at hmemf
    simp at hmemf
  · by_cases hp2 : (runPair X h c sched (initPair hostIn clientIn)).pcC = 2
    · rw [h2 hp2] at hmemf
      simp at hmemf
    · obtain ⟨fs, hfeq, hfs⟩ := h3 (by omega)
      rw [hfeq] at hmemf
      simp only [List.mem_cons] at hmemf
      rcases hmemf with hmemf | hmemf | hmemf
      · exact absurd hmemf (by simp)
      · exact absurd hmemf (by simp)
      · have hsub1 : List.Sublist [Ev.fwd h d] fs :=
          List.singleton_sublist.mpr hmemf
        have hsub2 : List.Sublist
            [Ev.send h .clientConnected true, Ev.send c .connected true,
             Ev.fwd h d]
            (Ev.send h .clientConnected true :: Ev.send c .connected true :: fs) :=
          (hsub1.cons₂ _).cons₂ _
        exact hsub2.trans (hfeq ▸ List.filter_sublist _)

/-- C6 witness: a schedule in which the client worker completes its
notifications, the host worker forwards one chunk, and the client worker
forwards one chunk; the forwarded client-to-host chunk is preceded by both
notifications. -/
theorem C6_witness :
    List.Sublist
      [Ev.send 1 .clientConnected true, Ev.send 2 .connected true, Ev.fwd 1 [5]]
      (runPair "abc" 1 2 [false, false, false, true, false]
        (initPair [[104]] [[5]])).trace :=
  C6_order "abc" 1 2 (by decide) [false, false, false, true, false]
    [[104]] [[5]] [5] (by decide)

end PyDeskRelay
